import Mathlib

/-!
# ParkPulse proposal/voting ledger — shallow embedding

Embedding of the two Solidity voting contracts (`src/contracts/flowVoting.sol`,
the integrity-checked `FlowVoting`, and the legacy delegated `HederaVoting`
variant) and of the `GET /api/proposals` handler of `src/server.js`.

Solidity `uint256` values are modelled as `Nat`; Solidity ^0.8 arithmetic is
checked (it reverts on overflow), so `+ 1` on a counter is modelled as `Nat`
addition guarded by an explicit overflow-revert branch at `2^256 - 1`.
Addresses are modelled as `Nat` (only identity/equality of addresses matters).
A reverting call is an `Except` error; a transaction that reverts leaves the
ledger state unchanged, which `applyOp` makes explicit.
-/

/-- Largest value representable in a Solidity `uint256`. -/
def UINT256_MAX : Nat := 2 ^ 256 - 1

/-- The `Proposal` struct, identical in both contract variants. -/
structure Proposal where
  proposalId : Nat
  parkName : String
  message : String
  parkSize : Nat
  chatTopicHistory : String
  creator : Nat
  yesVotes : Nat
  noVotes : Nat
  deadline : Nat
  exists_ : Bool
deriving Repr, DecidableEq

/-- Solidity mapping default value: the all-zero `Proposal` (with `exists_ = false`). -/
def Proposal.zero : Proposal :=
  { proposalId := 0, parkName := "", message := "", parkSize := 0, chatTopicHistory := ""
    creator := 0, yesVotes := 0, noVotes := 0, deadline := 0, exists_ := false }

/-- Revert reasons of the ledger operations.  The names follow the spec's error
kinds; each corresponds to one `require` in the contracts, and `Overflow` to a
Solidity ^0.8 checked-arithmetic revert. -/
inductive LedgerError where
  | InvalidDeadline
  | ProposalNotFound
  | VotingClosed
  | DuplicateVote
  | Overflow
deriving Repr, DecidableEq

namespace FlowVoting

/-- Contract storage of `FlowVoting`: `proposals` and `hasVoted` mappings and
the `proposalCount` counter. -/
structure State where
  proposals : Nat → Proposal
  hasVoted : Nat → Nat → Bool
  proposalCount : Nat

/-- Storage of a freshly deployed contract: all mappings at default values. -/
def State.empty : State :=
  { proposals := fun _ => Proposal.zero, hasVoted := fun _ _ => false, proposalCount := 0 }

/-- `FlowVoting.createProposal`.  Returns the allocated id together with the
new storage (the id is observable on chain through `proposalCount` and the
`ProposalCreated` event). -/
def createProposal (st : State) (now sender : Nat) (parkName message : String)
    (parkSize : Nat) (chatTopicHistory : String) (deadline : Nat) :
    Except LedgerError (Nat × State) :=
  if ¬ deadline > now then .error .InvalidDeadline
  else if st.proposalCount + 1 > UINT256_MAX then .error .Overflow
  else
    let newProposalId := st.proposalCount + 1
    let p : Proposal :=
      { proposalId := newProposalId, parkName := parkName, message := message
        parkSize := parkSize, chatTopicHistory := chatTopicHistory, creator := sender
        yesVotes := 0, noVotes := 0, deadline := deadline, exists_ := true }
    .ok (newProposalId,
      { st with
        proposals := fun i => if i = newProposalId then p else st.proposals i
        proposalCount := newProposalId })

/-- `FlowVoting.vote`: existence, deadline and duplicate checks in that order,
then the checked increment of the chosen counter and the `hasVoted` write. -/
def vote (st : State) (now sender : Nat) (proposalId : Nat) (support : Bool) :
    Except LedgerError State :=
  let p := st.proposals proposalId
  if ¬ p.exists_ then .error .ProposalNotFound
  else if ¬ now ≤ p.deadline then .error .VotingClosed
  else if st.hasVoted proposalId sender then .error .DuplicateVote
  else if (if support then p.yesVotes else p.noVotes) + 1 > UINT256_MAX then .error .Overflow
  else
    let p' := if support then { p with yesVotes := p.yesVotes + 1 }
              else { p with noVotes := p.noVotes + 1 }
    .ok { st with
          proposals := fun i => if i = proposalId then p' else st.proposals i
          hasVoted := fun i a => if i = proposalId ∧ a = sender then true else st.hasVoted i a }

/-- `FlowVoting.hasUserVoted`: a pure mapping lookup. -/
def hasUserVoted (st : State) (proposalId user : Nat) : Bool :=
  st.hasVoted proposalId user

end FlowVoting

/-- The tuple returned by `getProposal` in both variants: every stored field
plus the derived `active` flag. -/
structure ProposalView where
  proposalId : Nat
  parkName : String
  message : String
  parkSize : Nat
  chatTopicHistory : String
  creator : Nat
  yesVotes : Nat
  noVotes : Nat
  deadline : Nat
  active : Bool
deriving Repr, DecidableEq

/-- Body of `getProposal`, shared verbatim by both contracts: revert unless the
proposal exists, then return a snapshot with `active := now ≤ deadline`. -/
def getProposalOf (props : Nat → Proposal) (now proposalId : Nat) :
    Except LedgerError ProposalView :=
  let p := props proposalId
  if ¬ p.exists_ then .error .ProposalNotFound
  else
    .ok { proposalId := p.proposalId, parkName := p.parkName, message := p.message
          parkSize := p.parkSize, chatTopicHistory := p.chatTopicHistory
          creator := p.creator, yesVotes := p.yesVotes, noVotes := p.noVotes
          deadline := p.deadline, active := decide (now ≤ p.deadline) }

/-- Body of `getActiveProposals`, shared verbatim by both contracts: the loop
`for i in 1..proposalCount` keeps `i` when `proposals[i].exists &&
block.timestamp <= proposals[i].deadline`, collecting ids in loop order (the
second copy loop of the source only trims the oversized temporary array and
keeps the collected prefix unchanged). -/
def activeScan (proposalCount : Nat) (props : Nat → Proposal) (now : Nat) : List Nat :=
  (List.range' 1 proposalCount).filter
    (fun i => (props i).exists_ && decide (now ≤ (props i).deadline))

namespace FlowVoting

/-- `FlowVoting.getProposal`. -/
def getProposal (st : State) (now proposalId : Nat) : Except LedgerError ProposalView :=
  getProposalOf st.proposals now proposalId

/-- `FlowVoting.getActiveProposals`. -/
def getActiveProposals (st : State) (now : Nat) : List Nat :=
  activeScan st.proposalCount st.proposals now

/-- `FlowVoting.getTotalProposals`. -/
def getTotalProposals (st : State) : Nat :=
  st.proposalCount

end FlowVoting

namespace HederaVoting

/-- Contract storage of `HederaVoting`: `proposals` and `voters` mappings and
the `proposalCount` counter.  `voters` stores all voter addresses recorded for
each proposal, in push order. -/
structure State where
  proposals : Nat → Proposal
  voters : Nat → List Nat
  proposalCount : Nat

/-- Storage of a freshly deployed contract. -/
def State.empty : State :=
  { proposals := fun _ => Proposal.zero, voters := fun _ => [], proposalCount := 0 }

/-- `HederaVoting.createProposal` — textually identical to the `FlowVoting`
one. -/
def createProposal (st : State) (now sender : Nat) (parkName message : String)
    (parkSize : Nat) (chatTopicHistory : String) (deadline : Nat) :
    Except LedgerError (Nat × State) :=
  if ¬ deadline > now then .error .InvalidDeadline
  else if st.proposalCount + 1 > UINT256_MAX then .error .Overflow
  else
    let newProposalId := st.proposalCount + 1
    let p : Proposal :=
      { proposalId := newProposalId, parkName := parkName, message := message
        parkSize := parkSize, chatTopicHistory := chatTopicHistory, creator := sender
        yesVotes := 0, noVotes := 0, deadline := deadline, exists_ := true }
    .ok (newProposalId,
      { st with
        proposals := fun i => if i = newProposalId then p else st.proposals i
        proposalCount := newProposalId })

/-- `HederaVoting.vote`: existence and deadline checks only (no duplicate
check), the checked increment, and the `voters[_proposalId].push(_voter)`. -/
def vote (st : State) (now : Nat) (proposalId : Nat) (support : Bool) (voter : Nat) :
    Except LedgerError State :=
  let p := st.proposals proposalId
  if ¬ p.exists_ then .error .ProposalNotFound
  else if ¬ now ≤ p.deadline then .error .VotingClosed
  else if (if support then p.yesVotes else p.noVotes) + 1 > UINT256_MAX then .error .Overflow
  else
    let p' := if support then { p with yesVotes := p.yesVotes + 1 }
              else { p with noVotes := p.noVotes + 1 }
    .ok { st with
          proposals := fun i => if i = proposalId then p' else st.proposals i
          voters := fun i => if i = proposalId then st.voters i ++ [voter] else st.voters i }

/-- `HederaVoting.getProposal`. -/
def getProposal (st : State) (now proposalId : Nat) : Except LedgerError ProposalView :=
  getProposalOf st.proposals now proposalId

/-- `HederaVoting.getVoters`: returns the stored voter list as is. -/
def getVoters (st : State) (proposalId : Nat) : List Nat :=
  st.voters proposalId

/-- `HederaVoting.getActiveProposals`. -/
def getActiveProposals (st : State) (now : Nat) : List Nat :=
  activeScan st.proposalCount st.proposals now

/-- `HederaVoting.getTotalProposals`. -/
def getTotalProposals (st : State) : Nat :=
  st.proposalCount

end HederaVoting

/-! ## Transaction traces

A ledger state is *reachable* when it is produced by a sequence of external
transactions run against a freshly deployed contract.  A reverting transaction
leaves the storage unchanged. -/

/-- An external transaction against `FlowVoting` (each carries the block
timestamp and `msg.sender` under which it runs). -/
inductive FlowOp where
  | create (now sender : Nat) (parkName message : String) (parkSize : Nat)
      (chatTopicHistory : String) (deadline : Nat)
  | vote (now sender proposalId : Nat) (support : Bool)

namespace FlowVoting

/-- Run one transaction; a revert leaves the storage unchanged. -/
def applyOp (st : State) (op : FlowOp) : State :=
  match op with
  | .create now sender parkName message parkSize chatTopicHistory deadline =>
    match createProposal st now sender parkName message parkSize chatTopicHistory deadline with
    | .ok (_, st') => st'
    | .error _ => st
  | .vote now sender proposalId support =>
    match vote st now sender proposalId support with
    | .ok st' => st'
    | .error _ => st

/-- The `(proposalId, msg.sender)` pair recorded by a transaction when it is a
vote that succeeds, i.e. the `VoteCast` events of the transaction. -/
def opLog (st : State) (op : FlowOp) : List (Nat × Nat) :=
  match op with
  | .create _ _ _ _ _ _ _ => []
  | .vote now sender proposalId support =>
    match vote st now sender proposalId support with
    | .ok _ => [(proposalId, sender)]
    | .error _ => []

/-- Run a transaction sequence from a given storage. -/
def runFrom (st : State) : List FlowOp → State
  | [] => st
  | op :: ops => runFrom (applyOp st op) ops

/-- The successful-vote log of a transaction sequence, in execution order. -/
def logFrom (st : State) : List FlowOp → List (Nat × Nat)
  | [] => []
  | op :: ops => opLog st op ++ logFrom (applyOp st op) ops

/-- Storage after running a transaction sequence against a fresh contract. -/
def run (ops : List FlowOp) : State :=
  runFrom State.empty ops

/-- Successful-vote log of a transaction sequence against a fresh contract. -/
def voteLog (ops : List FlowOp) : List (Nat × Nat) :=
  logFrom State.empty ops

end FlowVoting

/-- An external transaction against `HederaVoting`. -/
inductive HederaOp where
  | create (now sender : Nat) (parkName message : String) (parkSize : Nat)
      (chatTopicHistory : String) (deadline : Nat)
  | vote (now proposalId : Nat) (support : Bool) (voter : Nat)

namespace HederaVoting

/-- Run one transaction; a revert leaves the storage unchanged. -/
def applyOp (st : State) (op : HederaOp) : State :=
  match op with
  | .create now sender parkName message parkSize chatTopicHistory deadline =>
    match createProposal st now sender parkName message parkSize chatTopicHistory deadline with
    | .ok (_, st') => st'
    | .error _ => st
  | .vote now proposalId support voter =>
    match vote st now proposalId support voter with
    | .ok st' => st'
    | .error _ => st

/-- Run a transaction sequence from a given storage. -/
def runFrom (st : State) : List HederaOp → State
  | [] => st
  | op :: ops => runFrom (applyOp st op) ops

/-- Storage after running a transaction sequence against a fresh contract. -/
def run (ops : List HederaOp) : State :=
  runFrom State.empty ops

end HederaVoting

/-! ## The `GET /api/proposals` handler of `src/server.js`

The handler queries `getProposal(id)` for `id = 1 .. totalProposals` where
`totalProposals` is the hard-coded constant `20`, skips ids whose query throws
(nonexistent proposals revert), and keeps the proposals whose `isActive` flag
is true.  The contract behind `CONTRACT_ID` is the `HederaVoting` variant (the
server's vote endpoint calls the three-argument `vote`). -/

/-- The hard-coded `const totalProposals = 20;` of the handler. -/
def totalProposalsQueried : Nat := 20

/-- `calculateTimeLeft` helper of `src/server.js` (`timeLeft` is a JS number
that may be negative, hence `Int`). -/
def calculateTimeLeft (deadlineTimestamp now : Nat) : String :=
  let timeLeft : Int := (deadlineTimestamp : Int) - (now : Int)
  if timeLeft ≤ 0 then "Expired"
  else
    let days := timeLeft / (24 * 60 * 60)
    let hours := (timeLeft % (24 * 60 * 60)) / (60 * 60)
    if days > 0 then toString days ++ " day" ++ (if days > 1 then "s" else "") ++ " left"
    else if hours > 0 then
      toString hours ++ " hour" ++ (if hours > 1 then "s" else "") ++ " left"
    else "Less than 1 hour left"

/-- One JSON object of the handler's `proposals` response array. -/
structure ApiProposal where
  id : Nat
  title : String
  description : String
  location : String
  status : String
  votesYes : Nat
  votesNo : Nat
  timeLeft : String
  creator : Nat
  deadline : Nat
  chatTopicHistory : String
  parkSize : Nat
deriving Repr, DecidableEq

/-- The JSON object the handler pushes for one active proposal view
(JS `parkName || fallback` takes the fallback exactly on the empty string). -/
def apiProposalOfView (now : Nat) (v : ProposalView) : ApiProposal :=
  { id := v.proposalId
    title := if v.parkName = "" then "Park Proposal #" ++ toString v.proposalId else v.parkName
    description := if v.message = "" then "No description provided" else v.message
    location := "Park Size: " ++ toString v.parkSize ++ " sq ft"
    status := "Active Voting"
    votesYes := v.yesVotes
    votesNo := v.noVotes
    timeLeft := calculateTimeLeft v.deadline now
    creator := v.creator
    deadline := v.deadline
    chatTopicHistory := v.chatTopicHistory
    parkSize := v.parkSize }

/-- The `proposals` array of the `GET /api/proposals` response: the loop over
`id = 1 .. 20`, skipping reverting queries and inactive proposals. -/
def apiProposals (st : HederaVoting.State) (now : Nat) : List ApiProposal :=
  (List.range' 1 totalProposalsQueried).filterMap (fun id =>
    match HederaVoting.getProposal st now id with
    | .error _ => none
    | .ok v => if v.active then some (apiProposalOfView now v) else none)

/-! ## Auxiliary notions for the claims -/

/-- Arguments of one `createProposal` call (block timestamp, `msg.sender`, and
the five declared parameters). -/
structure CreateArgs where
  now : Nat
  sender : Nat
  parkName : String
  message : String
  parkSize : Nat
  chatTopicHistory : String
  deadline : Nat

/-- Run a sequence of `FlowVoting.createProposal` calls, collecting the
allocated ids; `none` as soon as one call reverts (claims about sequences of
*successful* creations are stated through this). -/
def FlowVoting.createSeq (st : FlowVoting.State) :
    List CreateArgs → Option (List Nat × FlowVoting.State)
  | [] => some ([], st)
  | a :: rest =>
    match FlowVoting.createProposal st a.now a.sender a.parkName a.message a.parkSize
        a.chatTopicHistory a.deadline with
    | .error _ => none
    | .ok (id, st') =>
      match FlowVoting.createSeq st' rest with
      | none => none
      | some (ids, stf) => some (id :: ids, stf)

/-- Inductive invariant tying a reachable `FlowVoting` storage to the log of
its successful votes. -/
structure FlowInv (st : FlowVoting.State) (log : List (Nat × Nat)) : Prop where
  voted_iff : ∀ pid a, st.hasVoted pid a = true ↔ (pid, a) ∈ log
  counts_eq : ∀ pid, (st.proposals pid).yesVotes + (st.proposals pid).noVotes
      = (log.filter (fun q => q.1 = pid)).length
  log_nodup : log.Nodup
  fresh_zero : ∀ pid, st.proposalCount < pid → st.proposals pid = Proposal.zero
  id_eq : ∀ pid, (st.proposals pid).exists_ = true → (st.proposals pid).proposalId = pid

/-- Inductive invariant on reachable `HederaVoting` storage. -/
structure HederaInv (st : HederaVoting.State) : Prop where
  counts_eq : ∀ pid, (st.proposals pid).yesVotes + (st.proposals pid).noVotes
      = (st.voters pid).length
  fresh_zero : ∀ pid, st.proposalCount < pid → st.proposals pid = Proposal.zero
  id_eq : ∀ pid, (st.proposals pid).exists_ = true → (st.proposals pid).proposalId = pid

/-! ## Concrete fixtures (used by the witness theorems) -/

/-- A proposal record as produced by `createProposal` with id 1, deadline 10,
creator 7. -/
def pFix : Proposal :=
  { proposalId := 1, parkName := "Riverside", message := "restore", parkSize := 120
    chatTopicHistory := "0.0.99", creator := 7, yesVotes := 0, noVotes := 0
    deadline := 10, exists_ := true }

/-- A `FlowVoting` storage holding exactly the proposal `pFix`, nobody having
voted. -/
def stF1 : FlowVoting.State :=
  { proposals := fun i => if i = 1 then pFix else Proposal.zero
    hasVoted := fun _ _ => false
    proposalCount := 1 }

/-- `stF1` after a successful `vote(1, true)` by sender 7 at time 5. -/
def stF1v : FlowVoting.State :=
  ((FlowVoting.vote stF1 5 7 1 true).toOption).getD FlowVoting.State.empty

/-- A `HederaVoting` storage holding exactly the proposal `pFix`, no votes. -/
def stH1 : HederaVoting.State :=
  { proposals := fun i => if i = 1 then pFix else Proposal.zero
    voters := fun _ => []
    proposalCount := 1 }

/-- `stH1` after a successful `vote(1, true, 9)` at time 5. -/
def stH1v : HederaVoting.State :=
  ((HederaVoting.vote stH1 5 1 true 9).toOption).getD HederaVoting.State.empty

/-- Two well-formed creation calls (deadline 10, submitted at time 0). -/
def argsFix : List CreateArgs :=
  [⟨0, 7, "a", "b", 1, "c", 10⟩, ⟨3, 8, "d", "e", 2, "f", 10⟩]

/-- Final storage of running `argsFix` from a fresh contract. -/
def stArgsFix : FlowVoting.State :=
  ((FlowVoting.createSeq FlowVoting.State.empty argsFix).getD ([], FlowVoting.State.empty)).2

/-- A small transaction trace: one creation then one vote by sender 7. -/
def opsFix : List FlowOp :=
  [.create 0 7 "a" "b" 1 "c" 10, .vote 5 7 1 true]

/-! ## Theorems -/

/-- Claim C1: `vote` fails with `ProposalNotFound` when no proposal with the id
exists; otherwise with `VotingClosed` when the current time is strictly past
the deadline (time exactly equal to the deadline passes the check); otherwise,
in the integrity-checked variant (`FlowVoting`), with `DuplicateVote` when the
voter already voted on this proposal; the checks are applied in exactly that
order, and with all checks passed (and no counter overflow) the vote
succeeds — in both variants. -/
theorem vote_checks_in_order (stF : FlowVoting.State) (stH : HederaVoting.State)
    (now sender voter proposalId : Nat) (support : Bool) :
    (((stF.proposals proposalId).exists_ = false →
        FlowVoting.vote stF now sender proposalId support = .error .ProposalNotFound) ∧
      ((stF.proposals proposalId).exists_ = true →
        (stF.proposals proposalId).deadline < now →
        FlowVoting.vote stF now sender proposalId support = .error .VotingClosed) ∧
      ((stF.proposals proposalId).exists_ = true →
        now ≤ (stF.proposals proposalId).deadline →
        stF.hasVoted proposalId sender = true →
        FlowVoting.vote stF now sender proposalId support = .error .DuplicateVote) ∧
      ((stF.proposals proposalId).exists_ = true →
        now ≤ (stF.proposals proposalId).deadline →
        stF.hasVoted proposalId sender = false →
        (if support then (stF.proposals proposalId).yesVotes
          else (stF.proposals proposalId).noVotes) < UINT256_MAX →
        ∃ st', FlowVoting.vote stF now sender proposalId support = .ok st')) ∧
    (((stH.proposals proposalId).exists_ = false →
        HederaVoting.vote stH now proposalId support voter = .error .ProposalNotFound) ∧
      ((stH.proposals proposalId).exists_ = true →
        (stH.proposals proposalId).deadline < now →
        HederaVoting.vote stH now proposalId support voter = .error .VotingClosed) ∧
      ((stH.proposals proposalId).exists_ = true →
        now ≤ (stH.proposals proposalId).deadline →
        (if support then (stH.proposals proposalId).yesVotes
          else (stH.proposals proposalId).noVotes) < UINT256_MAX →
        ∃ st', HederaVoting.vote stH now proposalId support voter = .ok st')) := by
  refine ⟨⟨?_, ?_, ?_, ?_⟩, ?_, ?_, ?_⟩
  · intro hex
    simp [FlowVoting.vote, hex]
  · intro hex hdl
    have hn : ¬ now ≤ (stF.proposals proposalId).deadline := by omega
    simp [FlowVoting.vote, hex, hn]
  · intro hex hdl hv
    simp [FlowVoting.vote, hex, hdl, hv]
  · intro hex hdl hv hof
    have h1 : ¬ ((if support then (stF.proposals proposalId).yesVotes
        else (stF.proposals proposalId).noVotes) + 1 > UINT256_MAX) := by omega
    cases hres : FlowVoting.vote stF now sender proposalId support with
    | error e => simp [FlowVoting.vote, hex, hdl, hv, h1] at hres
    | ok st' => exact ⟨st', rfl⟩
  · intro hex
    simp [HederaVoting.vote, hex]
  · intro hex hdl
    have hn : ¬ now ≤ (stH.proposals proposalId).deadline := by omega
    simp [HederaVoting.vote, hex, hn]
  · intro hex hdl hof
    have h1 : ¬ ((if support then (stH.proposals proposalId).yesVotes
        else (stH.proposals proposalId).noVotes) + 1 > UINT256_MAX) := by omega
    cases hres : HederaVoting.vote stH now proposalId support voter with
    | error e => simp [HederaVoting.vote, hex, hdl, h1] at hres
    | ok st' => exact ⟨st', rfl⟩

/-- Witness for C1: each check of `vote_checks_in_order` fired on a concrete
ledger — unknown id, past deadline, duplicate voter, and a successful vote cast
exactly at the deadline, in both variants. -/
theorem vote_checks_in_order_witness :
    FlowVoting.vote stF1 5 7 2 true = .error .ProposalNotFound ∧
    FlowVoting.vote stF1 20 7 1 true = .error .VotingClosed ∧
    FlowVoting.vote stF1v 6 7 1 true = .error .DuplicateVote ∧
    (∃ st', FlowVoting.vote stF1 10 7 1 true = .ok st') ∧
    HederaVoting.vote stH1 5 2 true 9 = .error .ProposalNotFound ∧
    HederaVoting.vote stH1 20 1 true 9 = .error .VotingClosed ∧
    (∃ st', HederaVoting.vote stH1 10 1 true 9 = .ok st') :=
  ⟨(vote_checks_in_order stF1 stH1 5 7 9 2 true).1.1 (by decide),
   (vote_checks_in_order stF1 stH1 20 7 9 1 true).1.2.1 (by decide) (by decide),
   (vote_checks_in_order stF1v stH1 6 7 9 1 true).1.2.2.1 (by decide) (by decide) (by decide),
   (vote_checks_in_order stF1 stH1 10 7 9 1 true).1.2.2.2 (by decide) (by decide) (by decide)
     (by decide),
   (vote_checks_in_order stF1 stH1 5 7 9 2 true).2.1 (by decide),
   (vote_checks_in_order stF1 stH1 20 7 9 1 true).2.2.1 (by decide) (by decide),
   (vote_checks_in_order stF1 stH1 10 7 9 1 true).2.2.2 (by decide) (by decide) (by decide)⟩

/-- Success shape of `FlowVoting.vote` (forward direction): with the three
checks satisfied and no counter overflow, the call succeeds and returns the
storage with the counter bumped and the `hasVoted` bit set. -/
lemma flow_vote_ok_of {st : FlowVoting.State} {now sender proposalId : Nat}
    {support : Bool}
    (hex : (st.proposals proposalId).exists_ = true)
    (hdl : now ≤ (st.proposals proposalId).deadline)
    (hv : st.hasVoted proposalId sender = false)
    (hof : (if support then (st.proposals proposalId).yesVotes
        else (st.proposals proposalId).noVotes) < UINT256_MAX) :
    FlowVoting.vote st now sender proposalId support = .ok
      { proposals := fun i => if i = proposalId then
            (if support then
              { st.proposals proposalId with
                yesVotes := (st.proposals proposalId).yesVotes + 1 }
            else
              { st.proposals proposalId with
                noVotes := (st.proposals proposalId).noVotes + 1 })
          else st.proposals i
        hasVoted := fun i a =>
          if i = proposalId ∧ a = sender then true else st.hasVoted i a
        proposalCount := st.proposalCount } := by
  have h1 : ¬ ((if support then (st.proposals proposalId).yesVotes
      else (st.proposals proposalId).noVotes) + 1 > UINT256_MAX) := by omega
  simp [FlowVoting.vote, hex, hdl, hv, h1]

/-- Success shape of `FlowVoting.vote` (inversion). -/
lemma flow_vote_ok_inv {st st' : FlowVoting.State} {now sender proposalId : Nat}
    {support : Bool} (h : FlowVoting.vote st now sender proposalId support = .ok st') :
    (st.proposals proposalId).exists_ = true ∧
    now ≤ (st.proposals proposalId).deadline ∧
    st.hasVoted proposalId sender = false ∧
    st' = { proposals := fun i => if i = proposalId then
              (if support then
                { st.proposals proposalId with
                  yesVotes := (st.proposals proposalId).yesVotes + 1 }
              else
                { st.proposals proposalId with
                  noVotes := (st.proposals proposalId).noVotes + 1 })
            else st.proposals i
            hasVoted := fun i a =>
              if i = proposalId ∧ a = sender then true else st.hasVoted i a
            proposalCount := st.proposalCount } := by
  by_cases hex : (st.proposals proposalId).exists_
  case neg => simp [FlowVoting.vote, hex] at h
  by_cases hdl : now ≤ (st.proposals proposalId).deadline
  case neg => simp [FlowVoting.vote, hex, hdl] at h
  by_cases hv : st.hasVoted proposalId sender
  case pos => simp [FlowVoting.vote, hex, hdl, hv] at h
  by_cases hof : (if support then (st.proposals proposalId).yesVotes
      else (st.proposals proposalId).noVotes) + 1 > UINT256_MAX
  case pos => simp [FlowVoting.vote, hex, hdl, hv, hof] at h
  rw [flow_vote_ok_of (by simpa using hex) hdl (by simpa using hv) (by omega)] at h
  injection h with h'
  exact ⟨by simpa using hex, hdl, by simpa using hv, h'.symm⟩

/-- Success shape of `HederaVoting.vote` (forward direction): with the two
checks satisfied and no counter overflow, the call succeeds and returns the
storage with the counter bumped and the voter pushed. -/
lemma hedera_vote_ok_of {st : HederaVoting.State} {now proposalId voter : Nat}
    {support : Bool}
    (hex : (st.proposals proposalId).exists_ = true)
    (hdl : now ≤ (st.proposals proposalId).deadline)
    (hof : (if support then (st.proposals proposalId).yesVotes
        else (st.proposals proposalId).noVotes) < UINT256_MAX) :
    HederaVoting.vote st now proposalId support voter = .ok
      { proposals := fun i => if i = proposalId then
            (if support then
              { st.proposals proposalId with
                yesVotes := (st.proposals proposalId).yesVotes + 1 }
            else
              { st.proposals proposalId with
                noVotes := (st.proposals proposalId).noVotes + 1 })
          else st.proposals i
        voters := fun i => if i = proposalId then st.voters i ++ [voter] else st.voters i
        proposalCount := st.proposalCount } := by
  have h1 : ¬ ((if support then (st.proposals proposalId).yesVotes
      else (st.proposals proposalId).noVotes) + 1 > UINT256_MAX) := by omega
  simp [HederaVoting.vote, hex, hdl, h1]

/-- Success shape of `HederaVoting.vote` (inversion). -/
lemma hedera_vote_ok_inv {st st' : HederaVoting.State} {now proposalId voter : Nat}
    {support : Bool} (h : HederaVoting.vote st now proposalId support voter = .ok st') :
    (st.proposals proposalId).exists_ = true ∧
    now ≤ (st.proposals proposalId).deadline ∧
    st' = { proposals := fun i => if i = proposalId then
              (if support then
                { st.proposals proposalId with
                  yesVotes := (st.proposals proposalId).yesVotes + 1 }
              else
                { st.proposals proposalId with
                  noVotes := (st.proposals proposalId).noVotes + 1 })
            else st.proposals i
            voters := fun i => if i = proposalId then st.voters i ++ [voter] else st.voters i
            proposalCount := st.proposalCount } := by
  by_cases hex : (st.proposals proposalId).exists_
  case neg => simp [HederaVoting.vote, hex] at h
  by_cases hdl : now ≤ (st.proposals proposalId).deadline
  case neg => simp [HederaVoting.vote, hex, hdl] at h
  by_cases hof : (if support then (st.proposals proposalId).yesVotes
      else (st.proposals proposalId).noVotes) + 1 > UINT256_MAX
  case pos => simp [HederaVoting.vote, hex, hdl, hof] at h
  rw [hedera_vote_ok_of (by simpa using hex) hdl (by omega)] at h
  injection h with h'
  exact ⟨by simpa using hex, hdl, h'.symm⟩

/-- Claim C8: a successful `vote` increments exactly the chosen counter of exactly
the voted proposal by one; the other counter, every other field of that
proposal, every other proposal, and `proposalCount` are unchanged — in both
variants. -/
theorem vote_increments_one_counter :
    (∀ (st st' : FlowVoting.State) (now sender proposalId : Nat) (support : Bool),
      FlowVoting.vote st now sender proposalId support = .ok st' →
      (st'.proposals proposalId).yesVotes
          = (st.proposals proposalId).yesVotes + (if support then 1 else 0) ∧
      (st'.proposals proposalId).noVotes
          = (st.proposals proposalId).noVotes + (if support then 0 else 1) ∧
      (st'.proposals proposalId).proposalId = (st.proposals proposalId).proposalId ∧
      (st'.proposals proposalId).parkName = (st.proposals proposalId).parkName ∧
      (st'.proposals proposalId).message = (st.proposals proposalId).message ∧
      (st'.proposals proposalId).parkSize = (st.proposals proposalId).parkSize ∧
      (st'.proposals proposalId).chatTopicHistory
          = (st.proposals proposalId).chatTopicHistory ∧
      (st'.proposals proposalId).creator = (st.proposals proposalId).creator ∧
      (st'.proposals proposalId).deadline = (st.proposals proposalId).deadline ∧
      (st'.proposals proposalId).exists_ = (st.proposals proposalId).exists_ ∧
      (∀ j, j ≠ proposalId → st'.proposals j = st.proposals j) ∧
      st'.proposalCount = st.proposalCount) ∧
    (∀ (st st' : HederaVoting.State) (now proposalId voter : Nat) (support : Bool),
      HederaVoting.vote st now proposalId support voter = .ok st' →
      (st'.proposals proposalId).yesVotes
          = (st.proposals proposalId).yesVotes + (if support then 1 else 0) ∧
      (st'.proposals proposalId).noVotes
          = (st.proposals proposalId).noVotes + (if support then 0 else 1) ∧
      (st'.proposals proposalId).proposalId = (st.proposals proposalId).proposalId ∧
      (st'.proposals proposalId).parkName = (st.proposals proposalId).parkName ∧
      (st'.proposals proposalId).message = (st.proposals proposalId).message ∧
      (st'.proposals proposalId).parkSize = (st.proposals proposalId).parkSize ∧
      (st'.proposals proposalId).chatTopicHistory
          = (st.proposals proposalId).chatTopicHistory ∧
      (st'.proposals proposalId).creator = (st.proposals proposalId).creator ∧
      (st'.proposals proposalId).deadline = (st.proposals proposalId).deadline ∧
      (st'.proposals proposalId).exists_ = (st.proposals proposalId).exists_ ∧
      (∀ j, j ≠ proposalId → st'.proposals j = st.proposals j) ∧
      st'.proposalCount = st.proposalCount) := by
  constructor
  · intro st st' now sender proposalId support h
    obtain ⟨-, -, -, hst⟩ := flow_vote_ok_inv h
    subst hst
    cases support <;>
      refine ⟨by simp, by simp, by simp, by simp, by simp, by simp, by simp, by simp,
        by simp, by simp, fun j hj => by simp [hj], by simp⟩
  · intro st st' now proposalId voter support h
    obtain ⟨-, -, hst⟩ := hedera_vote_ok_inv h
    subst hst
    cases support <;>
      refine ⟨by simp, by simp, by simp, by simp, by simp, by simp, by simp, by simp,
        by simp, by simp, fun j hj => by simp [hj], by simp⟩

/-- Witness for C8: the concrete yes-vote on `stF1` (resp. `stH1`) bumps
`yesVotes` of proposal 1 from 0 to 1 and leaves everything else unchanged. -/
theorem vote_increments_one_counter_witness :
    ((stF1v.proposals 1).yesVotes = (stF1.proposals 1).yesVotes + (if true then 1 else 0) ∧
      (stF1v.proposals 1).noVotes = (stF1.proposals 1).noVotes + (if true then 0 else 1) ∧
      (stF1v.proposals 1).proposalId = (stF1.proposals 1).proposalId ∧
      (stF1v.proposals 1).parkName = (stF1.proposals 1).parkName ∧
      (stF1v.proposals 1).message = (stF1.proposals 1).message ∧
      (stF1v.proposals 1).parkSize = (stF1.proposals 1).parkSize ∧
      (stF1v.proposals 1).chatTopicHistory = (stF1.proposals 1).chatTopicHistory ∧
      (stF1v.proposals 1).creator = (stF1.proposals 1).creator ∧
      (stF1v.proposals 1).deadline = (stF1.proposals 1).deadline ∧
      (stF1v.proposals 1).exists_ = (stF1.proposals 1).exists_ ∧
      (∀ j, j ≠ 1 → stF1v.proposals j = stF1.proposals j) ∧
      stF1v.proposalCount = stF1.proposalCount) ∧
    ((stH1v.proposals 1).yesVotes = (stH1.proposals 1).yesVotes + (if true then 1 else 0) ∧
      (stH1v.proposals 1).noVotes = (stH1.proposals 1).noVotes + (if true then 0 else 1) ∧
      (stH1v.proposals 1).proposalId = (stH1.proposals 1).proposalId ∧
      (stH1v.proposals 1).parkName = (stH1.proposals 1).parkName ∧
      (stH1v.proposals 1).message = (stH1.proposals 1).message ∧
      (stH1v.proposals 1).parkSize = (stH1.proposals 1).parkSize ∧
      (stH1v.proposals 1).chatTopicHistory = (stH1.proposals 1).chatTopicHistory ∧
      (stH1v.proposals 1).creator = (stH1.proposals 1).creator ∧
      (stH1v.proposals 1).deadline = (stH1.proposals 1).deadline ∧
      (stH1v.proposals 1).exists_ = (stH1.proposals 1).exists_ ∧
      (∀ j, j ≠ 1 → stH1v.proposals j = stH1.proposals j) ∧
      stH1v.proposalCount = stH1.proposalCount) :=
  ⟨vote_increments_one_counter.1 stF1 stF1v 5 7 1 true rfl,
   vote_increments_one_counter.2 stH1 stH1v 5 1 9 true rfl⟩

/-- Success shape of `FlowVoting.createProposal` (forward direction). -/
lemma flow_createProposal_ok_of {st : FlowVoting.State}
    {now sender parkSize deadline : Nat} {parkName message chat : String}
    (hd : now < deadline) (hof : st.proposalCount < UINT256_MAX) :
    FlowVoting.createProposal st now sender parkName message parkSize chat deadline
      = .ok (st.proposalCount + 1,
        { proposals := fun i => if i = st.proposalCount + 1 then
              { proposalId := st.proposalCount + 1, parkName := parkName
                message := message, parkSize := parkSize, chatTopicHistory := chat
                creator := sender, yesVotes := 0, noVotes := 0, deadline := deadline
                exists_ := true }
            else st.proposals i
          hasVoted := st.hasVoted
          proposalCount := st.proposalCount + 1 }) := by
  have h1 : ¬ ¬ deadline > now := by omega
  have h2 : ¬ (st.proposalCount + 1 > UINT256_MAX) := by omega
  simp [FlowVoting.createProposal, h1, h2]

/-- Success inversion of `FlowVoting.createProposal`: the allocated id is the
incremented counter. -/
lemma flow_createProposal_ok_inv {st st' : FlowVoting.State}
    {now sender parkSize deadline id : Nat} {parkName message chat : String}
    (h : FlowVoting.createProposal st now sender parkName message parkSize chat deadline
      = .ok (id, st')) :
    now < deadline ∧ id = st.proposalCount + 1 ∧ st'.proposalCount = st.proposalCount + 1 := by
  by_cases hd : deadline > now
  case neg => simp [FlowVoting.createProposal, hd] at h
  by_cases hov : st.proposalCount + 1 > UINT256_MAX
  case pos => simp [FlowVoting.createProposal, hd, hov] at h
  rw [flow_createProposal_ok_of hd (by omega)] at h
  injection h with h'
  cases h'
  exact ⟨hd, rfl, rfl⟩

/-- Claim C9: reading a proposal right after the `createProposal` call that
allocated its id returns exactly the call's input fields, zero counters, the
caller as creator, and `active = true`. -/
theorem createProposal_getProposal_roundtrip (st : FlowVoting.State)
    (now sender parkSize deadline : Nat) (parkName message chat : String)
    (hd : now < deadline) (hof : st.proposalCount < UINT256_MAX) :
    ∃ st', FlowVoting.createProposal st now sender parkName message parkSize chat deadline
        = .ok (st.proposalCount + 1, st') ∧
      FlowVoting.getProposal st' now (st.proposalCount + 1)
        = .ok { proposalId := st.proposalCount + 1, parkName := parkName
                message := message, parkSize := parkSize, chatTopicHistory := chat
                creator := sender, yesVotes := 0, noVotes := 0, deadline := deadline
                active := true } := by
  have h3 : now ≤ deadline := by omega
  refine ⟨_, flow_createProposal_ok_of hd hof, ?_⟩
  simp [FlowVoting.getProposal, getProposalOf, h3]

/-- Witness for C9: creating on the one-proposal ledger `stF1` at time 0 with
deadline 10 allocates id 2 and reads back exactly the inputs. -/
theorem createProposal_getProposal_roundtrip_witness :
    ∃ st', FlowVoting.createProposal stF1 0 8 "Elm" "shade" 55 "0.0.5" 10
        = .ok (stF1.proposalCount + 1, st') ∧
      FlowVoting.getProposal st' 0 (stF1.proposalCount + 1)
        = .ok { proposalId := stF1.proposalCount + 1, parkName := "Elm"
                message := "shade", parkSize := 55, chatTopicHistory := "0.0.5"
                creator := 8, yesVotes := 0, noVotes := 0, deadline := 10
                active := true } :=
  createProposal_getProposal_roundtrip stF1 0 8 55 10 "Elm" "shade" "0.0.5"
    (by decide) (by decide)

/-- Projections of a successful `HederaVoting.vote`: existence and deadline of
the voted proposal survive, the counters move as chosen, and the voter is
appended to that proposal's voter list. -/
lemma hedera_vote_projections {st st' : HederaVoting.State}
    {now proposalId voter : Nat} {support : Bool}
    (h : HederaVoting.vote st now proposalId support voter = .ok st') :
    (st'.proposals proposalId).exists_ = (st.proposals proposalId).exists_ ∧
    (st'.proposals proposalId).deadline = (st.proposals proposalId).deadline ∧
    (st'.proposals proposalId).yesVotes
        = (st.proposals proposalId).yesVotes + (if support then 1 else 0) ∧
    (st'.proposals proposalId).noVotes
        = (st.proposals proposalId).noVotes + (if support then 0 else 1) ∧
    st'.voters proposalId = st.voters proposalId ++ [voter] := by
  obtain ⟨-, -, hst⟩ := hedera_vote_ok_inv h
  subst hst
  cases support <;> simp

/-- Claim C3: the legacy `HederaVoting.vote` has no duplicate check — a second vote
naming the same voter on the same active proposal succeeds, increments the
chosen counter again, and appends the identity to the voter list a second
time; `getVoters` returns the identities in cast order. -/
theorem hedera_vote_allows_duplicates (st : HederaVoting.State)
    (now now2 proposalId voter : Nat) (support support2 : Bool)
    (hex : (st.proposals proposalId).exists_ = true)
    (hd1 : now ≤ (st.proposals proposalId).deadline)
    (hd2 : now2 ≤ (st.proposals proposalId).deadline)
    (hof : (st.proposals proposalId).yesVotes + (st.proposals proposalId).noVotes + 2
        ≤ UINT256_MAX) :
    ∃ st1 st2, HederaVoting.vote st now proposalId support voter = .ok st1 ∧
      HederaVoting.vote st1 now2 proposalId support2 voter = .ok st2 ∧
      st2.voters proposalId = st.voters proposalId ++ [voter, voter] ∧
      HederaVoting.getVoters st2 proposalId = st.voters proposalId ++ [voter, voter] ∧
      (st2.proposals proposalId).yesVotes = (st.proposals proposalId).yesVotes
        + (if support then 1 else 0) + (if support2 then 1 else 0) ∧
      (st2.proposals proposalId).noVotes = (st.proposals proposalId).noVotes
        + (if support then 0 else 1) + (if support2 then 0 else 1) := by
  obtain ⟨st1, h1⟩ : ∃ st1, HederaVoting.vote st now proposalId support voter = .ok st1 :=
    ⟨_, hedera_vote_ok_of hex hd1 (by cases support <;> simp <;> omega)⟩
  obtain ⟨hex1, hdl1, hyes1, hno1, hvot1⟩ := hedera_vote_projections h1
  obtain ⟨st2, h2⟩ : ∃ st2, HederaVoting.vote st1 now2 proposalId support2 voter = .ok st2 := by
    refine ⟨_, hedera_vote_ok_of (hex1.trans hex) (by rw [hdl1]; exact hd2) ?_⟩
    rw [hyes1, hno1]
    cases support <;> cases support2 <;> simp <;> omega
  obtain ⟨hex2, hdl2, hyes2, hno2, hvot2⟩ := hedera_vote_projections h2
  refine ⟨st1, st2, h1, h2, ?_, ?_, ?_, ?_⟩
  · rw [hvot2, hvot1, List.append_assoc]
    rfl
  · rw [HederaVoting.getVoters, hvot2, hvot1, List.append_assoc]
    rfl
  · rw [hyes2, hyes1]
  · rw [hno2, hno1]

/-- Witness for C3: two yes-votes both naming address 9 on the one-proposal
ledger `stH1` both succeed and both appear, in order, in the voter list. -/
theorem hedera_vote_allows_duplicates_witness :
    ∃ st1 st2, HederaVoting.vote stH1 5 1 true 9 = .ok st1 ∧
      HederaVoting.vote st1 6 1 true 9 = .ok st2 ∧
      st2.voters 1 = stH1.voters 1 ++ [9, 9] ∧
      HederaVoting.getVoters st2 1 = stH1.voters 1 ++ [9, 9] ∧
      (st2.proposals 1).yesVotes = (stH1.proposals 1).yesVotes
        + (if true then 1 else 0) + (if true then 1 else 0) ∧
      (st2.proposals 1).noVotes = (stH1.proposals 1).noVotes
        + (if true then 0 else 1) + (if true then 0 else 1) :=
  hedera_vote_allows_duplicates stH1 5 6 1 9 true true (by decide) (by decide)
    (by decide) (by decide)

/-- The ids collected by a successful creation sequence are consecutive,
starting right after the initial counter value. -/
lemma createSeq_ids (args : List CreateArgs) :
    ∀ (st stf : FlowVoting.State) (ids : List Nat),
      FlowVoting.createSeq st args = some (ids, stf) →
      ids = List.range' (st.proposalCount + 1) args.length := by
  induction args with
  | nil =>
    intro st stf ids h
    simp [FlowVoting.createSeq] at h
    simp [h.1.symm]
  | cons a rest ih =>
    intro st stf ids h
    simp only [FlowVoting.createSeq] at h
    cases hc : FlowVoting.createProposal st a.now a.sender a.parkName a.message a.parkSize
        a.chatTopicHistory a.deadline with
    | error e => simp only [hc] at h; cases h
    | ok p =>
      obtain ⟨id, st'⟩ := p
      simp only [hc] at h
      cases hr : FlowVoting.createSeq st' rest with
      | none => simp only [hr] at h; cases h
      | some q =>
        obtain ⟨ids', stf'⟩ := q
        simp only [hr] at h
        injection h with h'
        injection h' with hids hstf
        obtain ⟨-, hid, hcount⟩ := flow_createProposal_ok_inv hc
        subst hids
        rw [ih st' stf' ids' hr, hcount, hid, List.length_cons,
          List.range'_succ (st.proposalCount + 1) rest.length 1]

/-- Claim C2: a sequence of successful `createProposal` calls against a fresh ledger
returns the consecutive ids 1, 2, 3, …: the k-th call allocates id k, and no
id is ever reused. -/
theorem createProposal_ids_consecutive (args : List CreateArgs)
    (ids : List Nat) (stf : FlowVoting.State)
    (h : FlowVoting.createSeq FlowVoting.State.empty args = some (ids, stf)) :
    ids = List.range' 1 args.length ∧ ids.Nodup ∧
    ∀ (k : Nat) (hk : k < ids.length), ids.get ⟨k, hk⟩ = k + 1 := by
  have hids := createSeq_ids args FlowVoting.State.empty stf ids h
  have h0 : FlowVoting.State.empty.proposalCount + 1 = 1 := rfl
  rw [h0] at hids
  subst hids
  refine ⟨rfl, List.nodup_range' .., ?_⟩
  intro k hk
  simp [List.getElem_range']
  omega

/-- Witness for C2: two concrete successful creations from the fresh ledger
return ids `[1, 2]`. -/
theorem createProposal_ids_consecutive_witness :
    [1, 2] = List.range' 1 argsFix.length ∧ ([1, 2] : List Nat).Nodup ∧
    ∀ (k : Nat) (hk : k < ([1, 2] : List Nat).length), [1, 2].get ⟨k, hk⟩ = k + 1 :=
  createProposal_ids_consecutive argsFix [1, 2] stArgsFix rfl

/-- Membership in the shared active-proposal scan. -/
lemma activeScan_mem (proposalCount : Nat) (props : Nat → Proposal) (now i : Nat) :
    i ∈ activeScan proposalCount props now ↔
      1 ≤ i ∧ i ≤ proposalCount ∧ (props i).exists_ = true ∧ now ≤ (props i).deadline := by
  simp only [activeScan, List.mem_filter, List.mem_range'_1, Bool.and_eq_true,
    decide_eq_true_eq]
  constructor
  · rintro ⟨⟨h1, h2⟩, h3, h4⟩
    exact ⟨h1, by omega, h3, h4⟩
  · rintro ⟨h1, h2, h3, h4⟩
    exact ⟨⟨h1, by omega⟩, h3, h4⟩

/-- The shared active-proposal scan lists ids in strictly ascending order. -/
lemma activeScan_sorted (proposalCount : Nat) (props : Nat → Proposal) (now : Nat) :
    (activeScan proposalCount props now).Pairwise (· < ·) :=
  List.Pairwise.sublist (List.filter_sublist _) (List.pairwise_lt_range' ..)

/-- Claim C5: in both variants, `getActiveProposals` returns exactly the ids `i ∈
[1, proposalCount]` with `proposals[i].exists && now ≤ deadline`, in strictly
ascending order; an id whose deadline has passed is absent with no state
change having occurred (the result is a pure function of storage and clock). -/
theorem getActiveProposals_exact (stF : FlowVoting.State) (stH : HederaVoting.State)
    (now i : Nat) :
    ((i ∈ FlowVoting.getActiveProposals stF now ↔
        1 ≤ i ∧ i ≤ stF.proposalCount ∧ (stF.proposals i).exists_ = true ∧
        now ≤ (stF.proposals i).deadline) ∧
      (FlowVoting.getActiveProposals stF now).Pairwise (· < ·) ∧
      ((stF.proposals i).deadline < now → i ∉ FlowVoting.getActiveProposals stF now)) ∧
    ((i ∈ HederaVoting.getActiveProposals stH now ↔
        1 ≤ i ∧ i ≤ stH.proposalCount ∧ (stH.proposals i).exists_ = true ∧
        now ≤ (stH.proposals i).deadline) ∧
      (HederaVoting.getActiveProposals stH now).Pairwise (· < ·) ∧
      ((stH.proposals i).deadline < now → i ∉ HederaVoting.getActiveProposals stH now)) := by
  refine ⟨⟨activeScan_mem .., activeScan_sorted .., ?_⟩,
    activeScan_mem .., activeScan_sorted .., ?_⟩
  · intro hlt hmem
    have := (activeScan_mem stF.proposalCount stF.proposals now i).mp hmem
    omega
  · intro hlt hmem
    have := (activeScan_mem stH.proposalCount stH.proposals now i).mp hmem
    omega

/-- Witness for C5: on the one-proposal ledgers, id 1 is listed at time 10
(the deadline) and gone at time 11, in both variants. -/
theorem getActiveProposals_exact_witness :
    1 ∈ FlowVoting.getActiveProposals stF1 10 ∧
    1 ∉ FlowVoting.getActiveProposals stF1 11 ∧
    1 ∈ HederaVoting.getActiveProposals stH1 10 ∧
    1 ∉ HederaVoting.getActiveProposals stH1 11 :=
  ⟨((getActiveProposals_exact stF1 stH1 10 1).1.1).mpr
      ⟨by decide, by decide, by decide, by decide⟩,
   (getActiveProposals_exact stF1 stH1 11 1).1.2.2 (by decide),
   ((getActiveProposals_exact stF1 stH1 10 1).2.1).mpr
      ⟨by decide, by decide, by decide, by decide⟩,
   (getActiveProposals_exact stF1 stH1 11 1).2.2.2 (by decide)⟩

/-- Claim C6: `createProposal` with a deadline at or before the current time reverts
with `InvalidDeadline` in both variants, and the reverted transaction leaves
the ledger storage (in particular `proposalCount`) unchanged. -/
theorem createProposal_invalid_deadline (stF : FlowVoting.State) (stH : HederaVoting.State)
    (now sender parkSize deadline : Nat) (parkName message chat : String)
    (h : deadline ≤ now) :
    FlowVoting.createProposal stF now sender parkName message parkSize chat deadline
      = .error .InvalidDeadline ∧
    FlowVoting.applyOp stF (.create now sender parkName message parkSize chat deadline) = stF ∧
    HederaVoting.createProposal stH now sender parkName message parkSize chat deadline
      = .error .InvalidDeadline ∧
    HederaVoting.applyOp stH (.create now sender parkName message parkSize chat deadline)
      = stH := by
  have hd : ¬ deadline > now := by omega
  refine ⟨?_, ?_, ?_, ?_⟩
  · simp [FlowVoting.createProposal, hd]
  · simp [FlowVoting.applyOp, FlowVoting.createProposal, hd]
  · simp [HederaVoting.createProposal, hd]
  · simp [HederaVoting.applyOp, HederaVoting.createProposal, hd]

/-- Witness for C6: creating with `deadline = now = 10` reverts on both
variants and leaves the one-proposal ledgers untouched. -/
theorem createProposal_invalid_deadline_witness :
    FlowVoting.createProposal stF1 10 7 "n" "m" 1 "c" 10 = .error .InvalidDeadline ∧
    FlowVoting.applyOp stF1 (.create 10 7 "n" "m" 1 "c" 10) = stF1 ∧
    HederaVoting.createProposal stH1 10 7 "n" "m" 1 "c" 10 = .error .InvalidDeadline ∧
    HederaVoting.applyOp stH1 (.create 10 7 "n" "m" 1 "c" 10) = stH1 :=
  createProposal_invalid_deadline stF1 stH1 10 7 1 10 "n" "m" "c" (by decide)

/-- Full success shape of `FlowVoting.createProposal` (inversion). -/
lemma flow_createProposal_ok_state {st st' : FlowVoting.State}
    {now sender parkSize deadline id : Nat} {parkName message chat : String}
    (h : FlowVoting.createProposal st now sender parkName message parkSize chat deadline
      = .ok (id, st')) :
    now < deadline ∧ id = st.proposalCount + 1 ∧
    st' = { proposals := fun i => if i = st.proposalCount + 1 then
              { proposalId := st.proposalCount + 1, parkName := parkName
                message := message, parkSize := parkSize, chatTopicHistory := chat
                creator := sender, yesVotes := 0, noVotes := 0, deadline := deadline
                exists_ := true }
            else st.proposals i
            hasVoted := st.hasVoted
            proposalCount := st.proposalCount + 1 } := by
  by_cases hd : deadline > now
  case neg => simp [FlowVoting.createProposal, hd] at h
  by_cases hov : st.proposalCount + 1 > UINT256_MAX
  case pos => simp [FlowVoting.createProposal, hd, hov] at h
  rw [flow_createProposal_ok_of hd (by omega)] at h
  injection h with h'
  cases h'
  exact ⟨hd, rfl, rfl⟩

/-- Success shape of `HederaVoting.createProposal` (forward direction). -/
lemma hedera_createProposal_ok_of {st : HederaVoting.State}
    {now sender parkSize deadline : Nat} {parkName message chat : String}
    (hd : now < deadline) (hof : st.proposalCount < UINT256_MAX) :
    HederaVoting.createProposal st now sender parkName message parkSize chat deadline
      = .ok (st.proposalCount + 1,
        { proposals := fun i => if i = st.proposalCount + 1 then
              { proposalId := st.proposalCount + 1, parkName := parkName
                message := message, parkSize := parkSize, chatTopicHistory := chat
                creator := sender, yesVotes := 0, noVotes := 0, deadline := deadline
                exists_ := true }
            else st.proposals i
          voters := st.voters
          proposalCount := st.proposalCount + 1 }) := by
  have h1 : ¬ ¬ deadline > now := by omega
  have h2 : ¬ (st.proposalCount + 1 > UINT256_MAX) := by omega
  simp [HederaVoting.createProposal, h1, h2]

/-- Full success shape of `HederaVoting.createProposal` (inversion). -/
lemma hedera_createProposal_ok_state {st st' : HederaVoting.State}
    {now sender parkSize deadline id : Nat} {parkName message chat : String}
    (h : HederaVoting.createProposal st now sender parkName message parkSize chat deadline
      = .ok (id, st')) :
    now < deadline ∧ id = st.proposalCount + 1 ∧
    st' = { proposals := fun i => if i = st.proposalCount + 1 then
              { proposalId := st.proposalCount + 1, parkName := parkName
                message := message, parkSize := parkSize, chatTopicHistory := chat
                creator := sender, yesVotes := 0, noVotes := 0, deadline := deadline
                exists_ := true }
            else st.proposals i
            voters := st.voters
            proposalCount := st.proposalCount + 1 } := by
  by_cases hd : deadline > now
  case neg => simp [HederaVoting.createProposal, hd] at h
  by_cases hov : st.proposalCount + 1 > UINT256_MAX
  case pos => simp [HederaVoting.createProposal, hd, hov] at h
  rw [hedera_createProposal_ok_of hd (by omega)] at h
  injection h with h'
  cases h'
  exact ⟨hd, rfl, rfl⟩

/-- `FlowInv` holds on a freshly deployed contract with an empty log. -/
lemma flowInv_empty : FlowInv FlowVoting.State.empty [] := by
  constructor
  · intro pid a
    simp [FlowVoting.State.empty]
  · intro pid
    simp [FlowVoting.State.empty, Proposal.zero]
  · simp
  · intro pid _
    rfl
  · intro pid hpex
    simp [FlowVoting.State.empty, Proposal.zero] at hpex

/-- One transaction preserves the `FlowVoting` invariant, with the log extended
by the transaction's successful votes. -/
lemma flowInv_applyOp (st : FlowVoting.State) (log : List (Nat × Nat)) (op : FlowOp)
    (h : FlowInv st log) :
    FlowInv (FlowVoting.applyOp st op) (log ++ FlowVoting.opLog st op) := by
  cases op with
  | create now sender parkName message parkSize chat deadline =>
    simp only [FlowVoting.applyOp, FlowVoting.opLog, List.append_nil]
    cases hc : FlowVoting.createProposal st now sender parkName message parkSize chat
        deadline with
    | error e => exact h
    | ok p =>
      obtain ⟨id, st'⟩ := p
      obtain ⟨hdl, hid, hst⟩ := flow_createProposal_ok_state hc
      subst hst
      constructor
      · intro pid a
        exact h.voted_iff pid a
      · intro pid
        by_cases hpid : pid = st.proposalCount + 1
        · subst hpid
          have h0 := h.counts_eq (st.proposalCount + 1)
          rw [h.fresh_zero (st.proposalCount + 1) (by omega)] at h0
          simp only [Proposal.zero] at h0
          simpa using h0
        · simpa [hpid] using h.counts_eq pid
      · exact h.log_nodup
      · intro pid hlt
        have hlt' : st.proposalCount + 1 < pid := hlt
        have hne : pid ≠ st.proposalCount + 1 := by omega
        simpa [hne] using h.fresh_zero pid (by omega)
      · intro pid hpex
        by_cases hpid : pid = st.proposalCount + 1
        · subst hpid
          simp
        · have hpex' : (st.proposals pid).exists_ = true := by simpa [hpid] using hpex
          simpa [hpid] using h.id_eq pid hpex'
  | vote now sender proposalId support =>
    simp only [FlowVoting.applyOp, FlowVoting.opLog]
    cases hv : FlowVoting.vote st now sender proposalId support with
    | error e => simpa using h
    | ok st' =>
      obtain ⟨hex, hdl, hnv, hst⟩ := flow_vote_ok_inv hv
      subst hst
      have hnotin : (proposalId, sender) ∉ log := by
        intro hin
        have hcontr := (h.voted_iff proposalId sender).mpr hin
        rw [hnv] at hcontr
        cases hcontr
      have hple : proposalId ≤ st.proposalCount := by
        by_contra hgt
        have hz := h.fresh_zero proposalId (by omega)
        rw [hz] at hex
        simp [Proposal.zero] at hex
      constructor
      · intro pid a
        by_cases hpa : pid = proposalId ∧ a = sender
        · obtain ⟨h1, h2⟩ := hpa
          subst h1
          subst h2
          simp
        · simpa [hpa, Prod.ext_iff] using h.voted_iff pid a
      · intro pid
        by_cases hpid : pid = proposalId
        · subst hpid
          have h0 := h.counts_eq pid
          cases support <;> simp [List.filter_append] <;> omega
        · have hpid' : ¬ (proposalId = pid) := fun hh => hpid hh.symm
          have h0 := h.counts_eq pid
          simpa [hpid, hpid', List.filter_append] using h0
      · simp only [List.nodup_append, List.nodup_cons, List.nodup_nil, and_true,
          List.not_mem_nil, not_false_eq_true]
        exact ⟨h.log_nodup, by simpa [List.disjoint_singleton] using hnotin⟩
      · intro pid hlt
        have hlt' : st.proposalCount < pid := hlt
        have hne : pid ≠ proposalId := by omega
        simpa [hne] using h.fresh_zero pid (by omega)
      · intro pid hpex
        by_cases hpid : pid = proposalId
        · subst hpid
          cases support <;> simpa using h.id_eq pid hex
        · have hpex' : (st.proposals pid).exists_ = true := by simpa [hpid] using hpex
          simpa [hpid] using h.id_eq pid hpex'

/-- Running any transaction sequence preserves the `FlowVoting` invariant. -/
lemma flowInv_runFrom (ops : List FlowOp) :
    ∀ (st : FlowVoting.State) (log : List (Nat × Nat)), FlowInv st log →
      FlowInv (FlowVoting.runFrom st ops) (log ++ FlowVoting.logFrom st ops) := by
  induction ops with
  | nil =>
    intro st log h
    simpa [FlowVoting.runFrom, FlowVoting.logFrom] using h
  | cons op ops ih =>
    intro st log h
    have hstep := ih (FlowVoting.applyOp st op) (log ++ FlowVoting.opLog st op)
      (flowInv_applyOp st log op h)
    simpa [FlowVoting.runFrom, FlowVoting.logFrom, List.append_assoc] using hstep

/-- Every reachable `FlowVoting` storage satisfies the invariant with respect
to its successful-vote log. -/
lemma flowInv_run (ops : List FlowOp) :
    FlowInv (FlowVoting.run ops) (FlowVoting.voteLog ops) := by
  have hrun := flowInv_runFrom ops FlowVoting.State.empty [] flowInv_empty
  simpa [FlowVoting.run, FlowVoting.voteLog] using hrun

/-- `HederaInv` holds on a freshly deployed contract. -/
lemma hederaInv_empty : HederaInv HederaVoting.State.empty := by
  constructor
  · intro pid
    simp [HederaVoting.State.empty, Proposal.zero]
  · intro pid _
    rfl
  · intro pid hpex
    simp [HederaVoting.State.empty, Proposal.zero] at hpex

/-- One transaction preserves the `HederaVoting` invariant. -/
lemma hederaInv_applyOp (st : HederaVoting.State) (op : HederaOp)
    (h : HederaInv st) : HederaInv (HederaVoting.applyOp st op) := by
  cases op with
  | create now sender parkName message parkSize chat deadline =>
    simp only [HederaVoting.applyOp]
    cases hc : HederaVoting.createProposal st now sender parkName message parkSize chat
        deadline with
    | error e => exact h
    | ok p =>
      obtain ⟨id, st'⟩ := p
      obtain ⟨hdl, hid, hst⟩ := hedera_createProposal_ok_state hc
      subst hst
      constructor
      · intro pid
        by_cases hpid : pid = st.proposalCount + 1
        · subst hpid
          have h0 := h.counts_eq (st.proposalCount + 1)
          rw [h.fresh_zero (st.proposalCount + 1) (by omega)] at h0
          simp only [Proposal.zero] at h0
          simpa using h0
        · simpa [hpid] using h.counts_eq pid
      · intro pid hlt
        have hlt' : st.proposalCount + 1 < pid := hlt
        have hne : pid ≠ st.proposalCount + 1 := by omega
        simpa [hne] using h.fresh_zero pid (by omega)
      · intro pid hpex
        by_cases hpid : pid = st.proposalCount + 1
        · subst hpid
          simp
        · have hpex' : (st.proposals pid).exists_ = true := by simpa [hpid] using hpex
          simpa [hpid] using h.id_eq pid hpex'
  | vote now proposalId support voter =>
    simp only [HederaVoting.applyOp]
    cases hv : HederaVoting.vote st now proposalId support voter with
    | error e => exact h
    | ok st' =>
      obtain ⟨hex, hdl, hst⟩ := hedera_vote_ok_inv hv
      subst hst
      have hple : proposalId ≤ st.proposalCount := by
        by_contra hgt
        have hz := h.fresh_zero proposalId (by omega)
        rw [hz] at hex
        simp [Proposal.zero] at hex
      constructor
      · intro pid
        by_cases hpid : pid = proposalId
        · subst hpid
          have h0 := h.counts_eq pid
          cases support <;> simp <;> omega
        · simpa [hpid] using h.counts_eq pid
      · intro pid hlt
        have hlt' : st.proposalCount < pid := hlt
        have hne : pid ≠ proposalId := by omega
        simpa [hne] using h.fresh_zero pid (by omega)
      · intro pid hpex
        by_cases hpid : pid = proposalId
        · subst hpid
          cases support <;> simpa using h.id_eq pid hex
        · have hpex' : (st.proposals pid).exists_ = true := by simpa [hpid] using hpex
          simpa [hpid] using h.id_eq pid hpex'

/-- Every reachable `HederaVoting` storage satisfies the invariant. -/
lemma hederaInv_run (ops : List HederaOp) : HederaInv (HederaVoting.run ops) := by
  have hgen : ∀ (st : HederaVoting.State), HederaInv st →
      HederaInv (HederaVoting.runFrom st ops) := by
    induction ops with
    | nil => intro st h; simpa [HederaVoting.runFrom] using h
    | cons op ops ih =>
      intro st h
      exact ih (HederaVoting.applyOp st op) (hederaInv_applyOp st op h)
  exact hgen HederaVoting.State.empty hederaInv_empty

/-- With the proposal existing, the deadline not passed, and the voter already
recorded, `FlowVoting.vote` reverts with `DuplicateVote`. -/
lemma flow_vote_error_duplicate {st : FlowVoting.State}
    {now sender proposalId : Nat} {support : Bool}
    (hex : (st.proposals proposalId).exists_ = true)
    (hdl : now ≤ (st.proposals proposalId).deadline)
    (hv : st.hasVoted proposalId sender = true) :
    FlowVoting.vote st now sender proposalId support = .error .DuplicateVote := by
  simp [FlowVoting.vote, hex, hdl, hv]

/-- Claim C4: in the integrity-checked variant, a second `vote` by the same identity
on the same (still open) proposal fails with `DuplicateVote`, and on every
reachable ledger `hasUserVoted` is true exactly for the identities whose vote
on that proposal succeeded. -/
theorem flow_duplicate_vote_rejected :
    (∀ (st st' : FlowVoting.State) (now now2 sender proposalId : Nat)
        (support support2 : Bool),
      FlowVoting.vote st now sender proposalId support = .ok st' →
      now2 ≤ (st'.proposals proposalId).deadline →
      FlowVoting.vote st' now2 sender proposalId support2 = .error .DuplicateVote) ∧
    (∀ (ops : List FlowOp) (proposalId a : Nat),
      FlowVoting.hasUserVoted (FlowVoting.run ops) proposalId a = true ↔
        (proposalId, a) ∈ FlowVoting.voteLog ops) := by
  constructor
  · intro st st' now now2 sender proposalId support support2 hok hdl2
    obtain ⟨hex, hdl, hnv, hst⟩ := flow_vote_ok_inv hok
    subst hst
    refine flow_vote_error_duplicate ?_ hdl2 ?_
    · cases support <;> simpa using hex
    · simp
  · intro ops proposalId a
    simpa [FlowVoting.hasUserVoted] using (flowInv_run ops).voted_iff proposalId a

/-- Witness for C4: on the one-proposal ledger, after the successful vote by
sender 7 the repeat vote fails with `DuplicateVote`; and on a concrete trace
`hasUserVoted` agrees with the vote log. -/
theorem flow_duplicate_vote_rejected_witness :
    FlowVoting.vote stF1v 6 7 1 false = .error .DuplicateVote ∧
    (FlowVoting.hasUserVoted (FlowVoting.run opsFix) 1 7 = true ↔
      (1, 7) ∈ FlowVoting.voteLog opsFix) :=
  ⟨flow_duplicate_vote_rejected.1 stF1 stF1v 5 6 7 1 true false rfl (by decide),
   flow_duplicate_vote_rejected.2 opsFix 1 7⟩

/-- Claim C7: on every reachable ledger of either variant, each proposal's
`yesVotes + noVotes` equals the number of accepted votes on it — the length of
its `voters` array in `HederaVoting`, the number of identities with a true
`hasVoted` bit in `FlowVoting`. -/
theorem counts_equal_accepted_votes (opsF : List FlowOp) (opsH : List HederaOp)
    (proposalId : Nat) :
    ((HederaVoting.run opsH).proposals proposalId).yesVotes
        + ((HederaVoting.run opsH).proposals proposalId).noVotes
      = ((HederaVoting.run opsH).voters proposalId).length ∧
    ((FlowVoting.run opsF).proposals proposalId).yesVotes
        + ((FlowVoting.run opsF).proposals proposalId).noVotes
      = Set.ncard { a : Nat | (FlowVoting.run opsF).hasVoted proposalId a = true } := by
  refine ⟨(hederaInv_run opsH).counts_eq proposalId, ?_⟩
  have hinv := flowInv_run opsF
  have hnodup : (((FlowVoting.voteLog opsF).filter (fun q => q.1 = proposalId)).map
      Prod.snd).Nodup := by
    refine List.Nodup.map_on ?_ (hinv.log_nodup.filter _)
    intro x hx y hy hxy
    have hx1 : x.1 = proposalId := by simpa using List.of_mem_filter hx
    have hy1 : y.1 = proposalId := by simpa using List.of_mem_filter hy
    exact Prod.ext (hx1.trans hy1.symm) hxy
  have hset : { a : Nat | (FlowVoting.run opsF).hasVoted proposalId a = true }
      = { a : Nat | a ∈ ((FlowVoting.voteLog opsF).filter
          (fun q => q.1 = proposalId)).map Prod.snd } := by
    ext a
    simp only [Set.mem_setOf_eq, List.mem_map, List.mem_filter, decide_eq_true_eq]
    rw [hinv.voted_iff proposalId a]
    constructor
    · intro hmem
      exact ⟨(proposalId, a), ⟨hmem, rfl⟩, rfl⟩
    · rintro ⟨q, ⟨hq, hq1⟩, hq2⟩
      have hqeq : q = (proposalId, a) := Prod.ext hq1 hq2
      rwa [hqeq] at hq
  rw [hset, ← List.coe_toFinset, Set.ncard_coe_Finset,
    List.toFinset_card_of_nodup hnodup, List.length_map]
  exact hinv.counts_eq proposalId

/-- Success inversion of the shared `getProposalOf`: the proposal exists and
the returned view carries its stored `proposalId` field. -/
lemma getProposalOf_ok_inv {props : Nat → Proposal} {now proposalId : Nat}
    {v : ProposalView} (h : getProposalOf props now proposalId = .ok v) :
    (props proposalId).exists_ = true ∧ v.proposalId = (props proposalId).proposalId := by
  by_cases hex : (props proposalId).exists_
  case neg => simp [getProposalOf, hex] at h
  simp only [getProposalOf, hex, not_true_eq_false, if_false, Except.ok.injEq] at h
  subst h
  exact ⟨by simpa using hex, rfl⟩

/-- Claim C10: the `GET /api/proposals` handler queries only ids 1 through the
hard-coded 20, so on every reachable ledger no response entry carries an id
above 20 — an active proposal with a larger id is never listed, whatever
`getTotalProposals` is. -/
theorem api_excludes_ids_above_20 (ops : List HederaOp) (now proposalId : Nat)
    (h20 : 20 < proposalId) :
    proposalId ∉ (apiProposals (HederaVoting.run ops) now).map ApiProposal.id := by
  intro hmem
  obtain ⟨entry, hentry, hid⟩ := List.mem_map.mp hmem
  obtain ⟨k, hk, hres⟩ := List.mem_filterMap.mp hentry
  have hk20 : 1 ≤ k ∧ k < 1 + totalProposalsQueried := List.mem_range'_1.mp hk
  cases hq : HederaVoting.getProposal (HederaVoting.run ops) now k with
  | error e =>
    rw [hq] at hres
    cases hres
  | ok v =>
    simp only [hq] at hres
    by_cases hact : v.active = true
    · rw [if_pos hact] at hres
      injection hres with hres'
      subst hres'
      have hq' : getProposalOf (HederaVoting.run ops).proposals now k = .ok v := hq
      obtain ⟨hex, hvid⟩ := getProposalOf_ok_inv hq'
      have hidk := (hederaInv_run ops).id_eq k hex
      have hentryid : (apiProposalOfView now v).id = v.proposalId := rfl
      rw [hentryid, hvid, hidk] at hid
      have h20' : totalProposalsQueried = 20 := rfl
      omega
    · rw [if_neg hact] at hres
      cases hres

/-- Witness for C10: id 21 is not among the listing's ids on the fresh
ledger. -/
theorem api_excludes_ids_above_20_witness :
    21 ∉ (apiProposals (HederaVoting.run []) 5).map ApiProposal.id :=
  api_excludes_ids_above_20 [] 5 21 (by decide)
